import Mathlib

/-!
Verification development for the Alpha Vantage MCP server's handler layer
(`src/alpha_vantage_mcp_server/handlers.py`).

The handlers are shallowly embedded: upstream JSON payloads become the
inductive `JVal` type (mappings are association lists in insertion order,
matching Python dict semantics), Python strings become Lean `String`, and
fallible paths (`raise ValueError`) become `Except String` results.  The
Data Source port (the `fetch_*` helpers from `api_helpers`) is an external
collaborator: each handler model receives the raw upstream payload(s) as
explicit arguments.  A Python code path that would raise a `TypeError` or
`AttributeError` on a shape the handler never guards against is modelled
as `Option.none`; a deliberate `raise ValueError(msg)` is `Except.error msg`.
-/

namespace AlphaVantage

/-- JSON-like value: upstream payloads and normalized results.
Objects are association lists in insertion order (Python dict order). -/
inductive JVal where
  | s : String → JVal
  | num : Int → JVal
  | bool : Bool → JVal
  | null : JVal
  | arr : List JVal → JVal
  | obj : List (String × JVal) → JVal

/-- Python `key in d` / `d[key]` on a dict: first binding for the key. -/
def lookupJ (k : String) : List (String × JVal) → Option JVal
  | [] => none
  | kv :: rest => if kv.fst = k then some kv.snd else lookupJ k rest

/-- Python `key in d` membership test. -/
def hasKeyJ (k : String) (fields : List (String × JVal)) : Bool :=
  (lookupJ k fields).isSome

/-- Python `isinstance(x, dict)`. -/
def isObj : JVal → Bool
  | .obj _ => true
  | _ => false

/-- The bindings of an object value (empty for non-objects). -/
def componentsOf : JVal → List (String × JVal)
  | .obj comps => comps
  | _ => []

/- ### String helpers mirroring the Python string primitives used. -/

/-- Python `len(s)` (a count of characters). -/
def strLen (s : String) : Nat := s.data.length

/-- ASCII whitespace stripped by Python `str.strip()`. -/
def isSpaceChar (c : Char) : Bool :=
  c = ' ' || c = '\t' || c = '\n' || c = '\r' || c = '\x0b' || c = '\x0c'

/-- Python `s.strip()` (for the ASCII payloads handled here). -/
def strTrim (s : String) : String :=
  ⟨((s.data.dropWhile isSpaceChar).reverse.dropWhile isSpaceChar).reverse⟩

/-- Python `s.rstrip("\r")`. -/
def dropTrailingCR (s : String) : String :=
  ⟨(s.data.reverse.dropWhile (fun c => c = '\r')).reverse⟩

/-- Split a character list on a separator character (Python `str.split(sep)`
for a one-character separator: no collapsing, empty pieces kept). -/
def splitOnChar (sep : Char) : List Char → List (List Char)
  | [] => [[]]
  | c :: rest =>
    let r := splitOnChar sep rest
    if c = sep then [] :: r
    else
      match r with
      | [] => [[c]]
      | h :: t => (c :: h) :: t

/-- Python `s.split(sep)` for a one-character separator. -/
def strSplitOnChar (sep : Char) (s : String) : List String :=
  (splitOnChar sep s.data).map (fun l => ⟨l⟩)

/-- Python `str.lower()` for the ASCII identifiers used by the handlers. -/
def charToLower (c : Char) : Char :=
  if 65 ≤ c.toNat ∧ c.toNat ≤ 90 then Char.ofNat (c.toNat + 32) else c

/-- Python `s.lower()`. -/
def strToLower (s : String) : String := ⟨s.data.map charToLower⟩

/-- Python `pat in s` substring test, on character lists. -/
def occursInList (p : List Char) : List Char → Bool
  | [] => p.isEmpty
  | c :: rest => p.isPrefixOf (c :: rest) || occursInList p rest

/-- Python `pat in s` substring test. -/
def strOccursIn (pat s : String) : Bool := occursInList pat.data s.data

end AlphaVantage

namespace AlphaVantage

/- ### Time-series router (`fetch_time_series`, lines 111-167; also used by
`get_stock_time_series`, line 1625, which forwards interval and adjusted). -/

/-- The underlying Data Source operation selected by the router. -/
inductive TimeSeriesOp where
  | intraday
  | daily
  | daily_adjusted
  | weekly
  | weekly_adjusted
  | monthly
  | monthly_adjusted
deriving DecidableEq

/-- `intraday_intervals = ["1min", "5min", "15min", "30min", "60min"]`. -/
def intraday_intervals : List String := ["1min", "5min", "15min", "30min", "60min"]

/-- The `function_map` dict keyed by `(interval, adjusted)` pairs
(lines 150-157), rendered as a lookup function. -/
def function_map (interval : String) (adjusted : Bool) : Option TimeSeriesOp :=
  if interval = "daily" then (if adjusted then some .daily_adjusted else some .daily)
  else if interval = "weekly" then (if adjusted then some .weekly_adjusted else some .weekly)
  else if interval = "monthly" then (if adjusted then some .monthly_adjusted else some .monthly)
  else none

/-- Routing core of `fetch_time_series`: which Data Source operation is
selected for `(interval, adjusted)`.  `Except.error` models the
`raise ValueError(f"Unsupported interval: {interval}")` that fires before
any Data Source call is issued. -/
def fetch_time_series (interval : String) (adjusted : Bool) : Except String TimeSeriesOp :=
  if interval ∈ intraday_intervals then .ok .intraday
  else
    match function_map interval adjusted with
    | some f => .ok f
    | none => .error ("Unsupported interval: " ++ interval)

/- ### `_normalize_timestamp` (lines 170-189). -/

/-- `_normalize_timestamp(timestamp, interval)`. -/
def normalize_timestamp (timestamp interval : String) : String :=
  if interval = "daily" ∨ interval = "weekly" ∨ interval = "monthly" then
    if strLen timestamp = 10 then timestamp ++ " 00:00:00" else timestamp
  else
    if strLen timestamp = 16 then timestamp ++ ":00"
    else if strLen timestamp = 19 then timestamp
    else timestamp ++ " 00:00:00"

/- ### Aggregator packs (`get_trend_indicators` lines 192-282,
`get_momentum_indicators` 285-393, `get_volatility_indicators` 396-480,
`get_volume_indicators` 483-539).

Each pack fetches its indicators from the Data Source (external), then runs
the same transformation loop: skip any result that is not a dict containing
an `"items"` key; otherwise walk the first 20 timestamp entries of
`data["items"]` in upstream order, and expand each entry into one
observation per component field.  The pack's designated multi-component
indicator (MACD / STOCH / BBANDS) keeps the lower-cased component key;
every other indicator emits component `"value"` for each field. -/

/-- One unit of an aggregated pack:
`{timestamp, indicator, component, value}`. -/
structure IndicatorObservation where
  timestamp : String
  indicator : String
  component : String
  value : JVal

/-- The row built for one component field of one retained timestamp entry. -/
def mkObs (multiName interval name ts : String) (kv : String × JVal) : IndicatorObservation :=
  ⟨normalize_timestamp ts interval, strToLower name,
    if name = multiName then strToLower kv.fst else "value", kv.snd⟩

/-- Expansion of one retained `(timestamp, values)` entry.  The source does
`values.items()`, so a non-dict `values` would raise (modelled `none`). -/
def expandComponents (multiName interval name ts : String) (values : JVal) :
    Option (List IndicatorObservation) :=
  match values with
  | .obj comps => some (comps.map (mkObs multiName interval name ts))
  | _ => none

/-- Concatenate two optional row lists (propagating a crash). -/
def appendRows : Option (List IndicatorObservation) → Option (List IndicatorObservation) →
    Option (List IndicatorObservation)
  | some l, some ls => some (l ++ ls)
  | _, _ => none

/-- Sequence a list of per-entry expansions, concatenating the rows. -/
def collectRows : List (Option (List IndicatorObservation)) → Option (List IndicatorObservation)
  | [] => some []
  | o :: rest => appendRows o (collectRows rest)

/-- The per-indicator transformation loop shared by all four packs:
`if isinstance(data, dict) and "items" in data:` then walk at most the first
20 entries (`count >= 20: break`), else contribute nothing. -/
def rowsForIndicator (multiName interval name : String) (data : JVal) :
    Option (List IndicatorObservation) :=
  match data with
  | .obj fields =>
    match lookupJ "items" fields with
    | some (.obj entries) =>
      collectRows ((entries.take 20).map
        (fun e => expandComponents multiName interval name e.fst e.snd))
    | some _ => none
    | none => some []
  | _ => some []

/-- Rows of a whole pack, merged in the packs' fixed indicator order. -/
def packItems (multiName interval : String) (indicators : List (String × JVal)) :
    Option (List IndicatorObservation) :=
  collectRows (indicators.map (fun p => rowsForIndicator multiName interval p.fst p.snd))

/-- The `{"symbol": ..., "interval": ..., "preset": ...}` metadata block. -/
structure PackMetadata where
  symbol : String
  interval : String
  preset : String

/-- `{metadata, items}` result of a pack. -/
structure PackResult where
  metadata : PackMetadata
  items : List IndicatorObservation

/-- `get_trend_indicators`, given the four Data Source results
(SMA, EMA, WMA, MACD); MACD is the multi-component indicator. -/
def get_trend_indicators (symbol interval preset : String) (smaR emaR wmaR macdR : JVal) :
    Option PackResult :=
  (packItems "MACD" interval
      [("SMA", smaR), ("EMA", emaR), ("WMA", wmaR), ("MACD", macdR)]).map
    (fun items => ⟨⟨symbol, interval, preset⟩, items⟩)

/-- `get_volatility_indicators`, given the three Data Source results
(BBANDS, ATR, SAR); BBANDS is the multi-component indicator. -/
def get_volatility_indicators (symbol interval preset : String) (bbandsR atrR sarR : JVal) :
    Option PackResult :=
  (packItems "BBANDS" interval
      [("BBANDS", bbandsR), ("ATR", atrR), ("SAR", sarR)]).map
    (fun items => ⟨⟨symbol, interval, preset⟩, items⟩)

/-- `get_volume_indicators`, given the three Data Source results
(OBV, AD, ADOSC); the volume pack has no multi-component indicator, so the
multi-name is a string matching none of its indicators. -/
def get_volume_indicators (symbol interval preset : String) (obvR adR adoscR : JVal) :
    Option PackResult :=
  (packItems "" interval [("OBV", obvR), ("AD", adR), ("ADOSC", adoscR)]).map
    (fun items => ⟨⟨symbol, interval, preset⟩, items⟩)

/-- The guard `isinstance(data, dict) and "items" in data` of the pack loop. -/
def dictWithItems : JVal → Bool
  | .obj fields => hasKeyJ "items" fields
  | _ => false

/- ### Statement-type router (`get_financial_statements`, lines 542-574). -/

/-- Which Data Source calls the statement router selects. -/
inductive StatementOp where
  | all
  | income
  | balance
  | cash_flow
deriving DecidableEq

/-- Routing core of `get_financial_statements`: the discriminant is
lower-cased first, then matched; the fall-through raises `ValueError` with
the offending (lower-cased) value and the supported set, before any Data
Source call. -/
def get_financial_statements (statement_type : String) : Except String StatementOp :=
  let st := strToLower statement_type
  if st = "all" then .ok .all
  else if st = "income" then .ok .income
  else if st = "balance" then .ok .balance
  else if st = "cash_flow" then .ok .cash_flow
  else
    .error ("Unsupported statement type: " ++ st ++
      ". Supported types: 'income', 'balance', 'cash_flow', 'all'")

/- ### Profile-type router (`get_symbol_overview`, lines 745-761). -/

/-- Which Data Source call the profile router selects. -/
inductive ProfileOp where
  | company
  | etf
deriving DecidableEq

/-- Routing core of `get_symbol_overview`: the fall-through raises
`ValueError(f"Unsupported profile type: {profile_type}")` before any Data
Source call. -/
def get_symbol_overview (profile_type : String) : Except String ProfileOp :=
  if profile_type = "company" then .ok .company
  else if profile_type = "etf" then .ok .etf
  else .error ("Unsupported profile type: " ++ profile_type)

/- ### Analytics router (`analyze_stocks`, lines 638-742). -/

/-- The caller-supplied parameters of `analyze_stocks`. -/
structure AnalyticsRequest where
  symbols : List String
  interval : String
  calculations : List String
  series_range : String
  ohlc : String
  window_size : Option Int

/-- Python `d[k] = v` on a dict: replace in place, or append at the end. -/
def setKey (k : String) (v : JVal) : List (String × JVal) → List (String × JVal)
  | [] => [(k, v)]
  | kv :: rest => if kv.fst = k then (k, v) :: rest else kv :: setKey k v rest

/-- `d[k] = v` only when `k not in d` (the `if "x" not in result` backfills). -/
def ensureKey (k : String) (v : JVal) (fields : List (String × JVal)) :
    List (String × JVal) :=
  if hasKeyJ k fields then fields else setKey k v fields

/-- Python `d.update(u)`: apply each binding of `u` in order. -/
def updateObj (fields : List (String × JVal)) (updates : List (String × JVal)) :
    List (String × JVal) :=
  updates.foldl (fun acc kv => setKey kv.fst kv.snd acc) fields

/-- The synthesized placeholder `results` array: the symbol × calculation
cartesian product of zero-valued flat records. -/
def placeholderResults (symbols calculations : List String) : List JVal :=
  symbols.flatMap (fun sym => calculations.map (fun c =>
    .obj [("symbol", .s sym), ("calculation", .s c),
          ("value", .num 0), ("date", .s "2024-01-01")]))

/-- The metadata echo written by `result["metadata"].update({...})`, in the
source's literal order.  The sliding branch echoes the window size; the
fixed branch writes `"window_size": None`. -/
def analyticsMetadataUpdates (req : AnalyticsRequest) (isSliding : Bool) :
    List (String × JVal) :=
  [("interval", .s req.interval),
   ("series_range", .s req.series_range),
   ("ohlc", .s req.ohlc),
   ("window_size",
     if isSliding then
       (match req.window_size with
        | some w => .num w
        | none => .null)
     else .null),
   ("calculations", .arr (req.calculations.map .s))]

/-- The key-writing prefix of the backfill common to both `analyze_stocks`
branches: set `window_type` and `symbols`, backfill `data_format` (fixed
branch only), backfill `results` with the placeholder when absent, and
backfill an empty `metadata` block when absent. -/
def analyticsPrepare (req : AnalyticsRequest) (isSliding : Bool)
    (fields : List (String × JVal)) : List (String × JVal) :=
  let f1 := setKey "window_type" (.s (if isSliding then "sliding" else "fixed")) fields
  let f2 := setKey "symbols" (.arr (req.symbols.map JVal.s)) f1
  let f3 := if isSliding then f2 else ensureKey "data_format" (.s "json") f2
  let f4 := ensureKey "results" (.arr (placeholderResults req.symbols req.calculations)) f3
  ensureKey "metadata" (.obj []) f4

/-- The post-fetch backfill common to both `analyze_stocks` branches:
prepare the keys, then `result["metadata"].update({...})`.  `none` models
the crash the source would hit updating a non-dict `result["metadata"]`. -/
def analyticsBackfill (req : AnalyticsRequest) (isSliding : Bool)
    (fields : List (String × JVal)) : Option (List (String × JVal)) :=
  let f5 := analyticsPrepare req isSliding fields
  match lookupJ "metadata" f5 with
  | some (.obj m) =>
    some (setKey "metadata" (.obj (updateObj m (analyticsMetadataUpdates req isSliding))) f5)
  | _ => none

/-- `analyze_stocks`, given the raw response of whichever analytics
operation the window-size rule selected (the Data Source call itself is
external).  A non-dict response is returned unchanged. -/
def analyze_stocks (req : AnalyticsRequest) (result : JVal) : Option JVal :=
  let isSliding : Bool :=
    match req.window_size with
    | some w => 10 ≤ w
    | none => false
  match result with
  | .obj fields => (analyticsBackfill req isSliding fields).map .obj
  | other => some other

/- ### Tabular decoders (`csv_to_list` lines 919-935 inside
`get_market_calendar`, `csv_to_listings` lines 993-1013 inside
`get_listing_status`). -/

/-- A cleaned field: `val.strip().rstrip("\r")`. -/
def cleanField (s : String) : String := dropTrailingCR (strTrim s)

/-- The comma-split cleaned fields of one data line. -/
def lineFields (line : String) : List String :=
  (strSplitOnChar ',' line).map cleanField

/-- One data line of `csv_to_list`: kept only when its field count matches
the caller-supplied header list. -/
def parseLine (headers : List String) (line : String) :
    Option (List (String × String)) :=
  let values := lineFields line
  if values.length = headers.length then some (headers.zip values) else none

/-- `csv_to_list(csv_data, headers)`. -/
def csv_to_list (csv_data : String) (headers : List String) :
    List (List (String × String)) :=
  let lines := strSplitOnChar '\n' (strTrim csv_data)
  if lines.length ≤ 1 then []
  else (lines.drop 1).filterMap (parseLine headers)

/-- One decoded listing record of `get_listing_status`. -/
structure Listing where
  symbol : String
  name : String
  exchange : String
  asset_type : String
  ipo_date : String
  delisting_date : String
  status : String
deriving DecidableEq

/-- One data line of `csv_to_listings`: kept when it has at least 7 fields
(`if len(values) >= 7`), taking the first seven. -/
def parseListing (line : String) : Option Listing :=
  let values := lineFields line
  if 7 ≤ values.length then
    some ⟨values.getD 0 "", values.getD 1 "", values.getD 2 "", values.getD 3 "",
          values.getD 4 "", values.getD 5 "", values.getD 6 ""⟩
  else none

/-- `csv_to_listings(csv_data)`. -/
def csv_to_listings (csv_data : String) : List Listing :=
  let lines := strSplitOnChar '\n' (strTrim csv_data)
  if lines.length ≤ 1 then []
  else (lines.drop 1).filterMap parseListing

/- ### FX rate key normalizer (`normalize_fx_rate_keys` lines 1045-1077
inside `get_current_fx_rate`). -/

/-- The fixed `key_mappings` table of `normalize_fx_rate_keys`. -/
def fx_key_mappings : List (String × String) :=
  [("1. From_Currency Code", "from_currency_code"),
   ("2. From_Currency Name", "from_currency_name"),
   ("3. To_Currency Code", "to_currency_code"),
   ("4. To_Currency Name", "to_currency_name"),
   ("5. Exchange Rate", "exchange_rate"),
   ("6. Last Refreshed", "last_refreshed"),
   ("7. Time Zone", "time_zone"),
   ("8. Bid Price", "bid_price"),
   ("9. Ask Price", "ask_price")]

/-- `normalize_fx_rate_keys(data)`: a non-dict payload is returned
unchanged; a payload without the container key is returned unchanged; the
container's bindings are renamed through `fx_key_mappings`, keeping only
keys that are present.  A non-dict container (whose Python membership test
would not be a key lookup) is not modelled (`none`). -/
def normalize_fx_rate_keys (data : JVal) : Option JVal :=
  match data with
  | .obj fields =>
    match lookupJ "Realtime Currency Exchange Rate" fields with
    | some (.obj rateData) =>
      some (.obj (fx_key_mappings.filterMap
        (fun m => (lookupJ m.fst rateData).map (fun v => (m.snd, v)))))
    | some _ => none
    | none => some (.obj fields)
  | other => some other

/- ### Crypto quote normalizer (`normalize_crypto_quote` lines 1192-1240
inside `get_current_crypto_quote`). -/

/-- Python `<` on strings: lexicographic comparison by code point, on
character lists. -/
def strLtChars : List Char → List Char → Bool
  | _, [] => false
  | [], _ :: _ => true
  | a :: as, b :: bs =>
    if a.toNat < b.toNat then true
    else if b.toNat < a.toNat then false
    else strLtChars as bs

/-- Python `a < b` on strings. -/
def strLtB (a b : String) : Bool := strLtChars a.data b.data

/-- Insert into a descending-sorted list (used to model
`sorted(keys, reverse=True)`). -/
def insertDesc (d : String) : List String → List String
  | [] => [d]
  | e :: rest => if strLtB e d then d :: e :: rest else e :: insertDesc d rest

/-- `sorted(keys, reverse=True)`. -/
def sortDesc (l : List String) : List String := l.foldr insertDesc []

/-- The key scan `"Time Series" in key and "Digital Currency" in key`. -/
def cryptoTsPred (kv : String × JVal) : Bool :=
  strOccursIn "Time Series" kv.fst && strOccursIn "Digital Currency" kv.fst

/-- The `current_quote` block of a normalized crypto quote. -/
structure CryptoCurrentQuote where
  date : String
  open_ : JVal
  high : JVal
  low : JVal
  close : JVal
  volume : JVal

/-- The normalized crypto quote record: every key is always present,
missing upstream fields are filled with defaults. -/
structure CryptoQuote where
  symbol : JVal
  name : JVal
  market : JVal
  market_name : JVal
  last_refreshed : JVal
  time_zone : JVal
  current_quote : CryptoCurrentQuote

/-- `normalize_crypto_quote(data_str)` after `json.loads` (JSON decoding is
external to this layer; the model takes the decoded payload).  The two
`raise ValueError` paths are `Except.error`; `none` models the crash the
source would hit on a non-dict time-series container, metadata block or
latest entry. -/
def normalize_crypto_quote (symbol market : String) (data : JVal) :
    Option (Except String CryptoQuote) :=
  match data with
  | .obj fields =>
    match fields.find? cryptoTsPred with
    | none => some (.error "Time series data not found in response")
    | some kv =>
      match kv.snd with
      | .obj entries =>
        match sortDesc (entries.map Prod.fst) with
        | [] => some (.error "No time series data available")
        | latest :: _ =>
          match (lookupJ "Meta Data" fields).getD (.obj []) with
          | .obj meta =>
            match lookupJ latest entries with
            | some (.obj latestData) =>
              some (.ok
                ⟨(lookupJ "2. Digital Currency Code" meta).getD (.s symbol),
                 (lookupJ "3. Digital Currency Name" meta).getD (.s ""),
                 (lookupJ "4. Market Code" meta).getD (.s market),
                 (lookupJ "5. Market Name" meta).getD (.s ""),
                 (lookupJ "6. Last Refreshed" meta).getD (.s ""),
                 (lookupJ "7. Time Zone" meta).getD (.s ""),
                 ⟨latest,
                  (lookupJ "1. open" latestData).getD (.s ""),
                  (lookupJ "2. high" latestData).getD (.s ""),
                  (lookupJ "3. low" latestData).getD (.s ""),
                  (lookupJ "4. close" latestData).getD (.s ""),
                  (lookupJ "5. volume" latestData).getD (.s "")⟩⟩)
            | _ => none
          | _ => none
      | _ => none
  | _ => none

/- ### Helper lemmas. -/

theorem lookupJ_setKey_self (k : String) (v : JVal) (f : List (String × JVal)) :
    lookupJ k (setKey k v f) = some v := by
  induction f with
  | nil => simp [setKey, lookupJ]
  | cons kv rest ih =>
    by_cases h : kv.fst = k
    · simp [setKey, h, lookupJ]
    · simp [setKey, h, lookupJ, ih]

theorem lookupJ_setKey_ne (k k' : String) (v : JVal) (f : List (String × JVal))
    (h : k' ≠ k) : lookupJ k' (setKey k v f) = lookupJ k' f := by
  have hne : ¬(k = k') := fun hh => h hh.symm
  induction f with
  | nil => simp [setKey, lookupJ, hne]
  | cons kv rest ih =>
    by_cases hk : kv.fst = k
    · simp [setKey, hk, lookupJ, hne]
    · simp only [setKey, hk, if_false, lookupJ]
      by_cases hk' : kv.fst = k'
      · simp [hk']
      · simp [hk', ih]

theorem hasKeyJ_setKey_self (k : String) (v : JVal) (f : List (String × JVal)) :
    hasKeyJ k (setKey k v f) = true := by
  simp [hasKeyJ, lookupJ_setKey_self]

theorem hasKeyJ_setKey_ne (k k' : String) (v : JVal) (f : List (String × JVal))
    (h : k' ≠ k) : hasKeyJ k' (setKey k v f) = hasKeyJ k' f := by
  simp [hasKeyJ, lookupJ_setKey_ne k k' v f h]

theorem lookupJ_ensureKey_ne (k k' : String) (v : JVal) (f : List (String × JVal))
    (h : k' ≠ k) : lookupJ k' (ensureKey k v f) = lookupJ k' f := by
  unfold ensureKey
  by_cases hh : hasKeyJ k f
  · simp [hh]
  · simp [hh, lookupJ_setKey_ne k k' v f h]

theorem hasKeyJ_ensureKey_self (k : String) (v : JVal) (f : List (String × JVal)) :
    hasKeyJ k (ensureKey k v f) = true := by
  unfold ensureKey
  by_cases hh : hasKeyJ k f
  · simp [hh]
  · simp [hh, hasKeyJ_setKey_self]

theorem hasKeyJ_ensureKey_ne (k k' : String) (v : JVal) (f : List (String × JVal))
    (h : k' ≠ k) : hasKeyJ k' (ensureKey k v f) = hasKeyJ k' f := by
  simp [hasKeyJ, lookupJ_ensureKey_ne k k' v f h]

theorem lookupJ_ensureKey_absent (k : String) (v : JVal) (f : List (String × JVal))
    (h : lookupJ k f = none) : lookupJ k (ensureKey k v f) = some v := by
  unfold ensureKey
  simp [hasKeyJ, h, lookupJ_setKey_self]

theorem isPrefixOf_append_self (p r : List Char) : p.isPrefixOf (p ++ r) = true := by
  induction p with
  | nil => simp [List.isPrefixOf]
  | cons c cs ih => simp [List.isPrefixOf, ih]

theorem isPrefixOf_append_of (p l r : List Char) (h : p.isPrefixOf l = true) :
    p.isPrefixOf (l ++ r) = true := by
  induction p generalizing l with
  | nil => simp [List.isPrefixOf]
  | cons a as ih =>
    cases l with
    | nil => simp [List.isPrefixOf] at h
    | cons b bs =>
      simp only [List.isPrefixOf, Bool.and_eq_true] at h
      simp only [List.cons_append, List.isPrefixOf, Bool.and_eq_true]
      exact ⟨h.1, ih bs h.2⟩

theorem occursInList_nil_pat (l : List Char) : occursInList [] l = true := by
  cases l <;> simp [occursInList, List.isPrefixOf]

theorem occursInList_self_append (p r : List Char) : occursInList p (p ++ r) = true := by
  cases p with
  | nil => exact occursInList_nil_pat r
  | cons c cs =>
    simp only [List.cons_append, occursInList, Bool.or_eq_true]
    left
    simp [List.isPrefixOf, isPrefixOf_append_self cs r]

theorem occursInList_append_left (p l r : List Char) (h : occursInList p r = true) :
    occursInList p (l ++ r) = true := by
  induction l with
  | nil => exact h
  | cons c cs ih =>
    simp only [List.cons_append, occursInList, Bool.or_eq_true]
    right
    exact ih

theorem occursInList_append_right (p l r : List Char) (h : occursInList p l = true) :
    occursInList p (l ++ r) = true := by
  induction l with
  | nil =>
    simp only [occursInList, List.isEmpty_iff] at h
    subst h
    simpa using occursInList_nil_pat r
  | cons c cs ih =>
    simp only [occursInList, Bool.or_eq_true] at h
    simp only [List.cons_append, occursInList, Bool.or_eq_true]
    rcases h with h | h
    · exact Or.inl (isPrefixOf_append_of _ _ _ h)
    · exact Or.inr (ih h)

theorem strOccursIn_append_self (pre x : String) : strOccursIn x (pre ++ x) = true := by
  have hdata : (pre ++ x).data = pre.data ++ x.data := rfl
  unfold strOccursIn
  rw [hdata]
  have := occursInList_self_append x.data []
  exact occursInList_append_left _ _ _ (by simpa using this)

theorem strOccursIn_extend_right (pat a b : String) (h : strOccursIn pat a = true) :
    strOccursIn pat (a ++ b) = true := by
  have hdata : (a ++ b).data = a.data ++ b.data := rfl
  unfold strOccursIn at h ⊢
  rw [hdata]
  exact occursInList_append_right _ _ _ h

theorem strOccursIn_extend_left (pat a b : String) (h : strOccursIn pat b = true) :
    strOccursIn pat (a ++ b) = true := by
  have hdata : (a ++ b).data = a.data ++ b.data := rfl
  unfold strOccursIn at h ⊢
  rw [hdata]
  exact occursInList_append_left _ _ _ h

theorem collectRows_map_all_some {α : Type} (f : α → Option (List IndicatorObservation))
    (g : α → List IndicatorObservation) (l : List α)
    (h : ∀ a ∈ l, f a = some (g a)) :
    collectRows (l.map f) = some (l.flatMap g) := by
  induction l with
  | nil => simp [collectRows]
  | cons a rest ih =>
    have ha := h a (by simp)
    have hrest : ∀ x ∈ rest, f x = some (g x) := fun x hx => h x (by simp [hx])
    simp [collectRows, appendRows, ha, ih hrest]

theorem collectRows_append_some_nil (l : List (Option (List IndicatorObservation))) :
    collectRows (l ++ [some []]) = collectRows l := by
  induction l with
  | nil => simp [collectRows, appendRows]
  | cons o rest ih =>
    cases o with
    | none => simp [collectRows, appendRows]
    | some x =>
      show appendRows (some x) (collectRows (rest ++ [some []])) =
        appendRows (some x) (collectRows rest)
      rw [ih]

theorem strLtB_irrefl (a : String) : strLtB a a = false := by
  unfold strLtB
  induction a.data with
  | nil => rfl
  | cons c cs ih => simp [strLtChars, ih]

theorem strLtChars_trans (x : List Char) : ∀ y z : List Char,
    strLtChars x y = true → strLtChars y z = true → strLtChars x z = true := by
  induction x with
  | nil =>
    intro y z h1 h2
    cases z with
    | nil =>
      cases y with
      | nil => simp [strLtChars] at h1
      | cons b bs => simp [strLtChars] at h2
    | cons c cs => simp [strLtChars]
  | cons a as ih =>
    intro y z h1 h2
    cases y with
    | nil => simp [strLtChars] at h1
    | cons b bs =>
      cases z with
      | nil => simp [strLtChars] at h2
      | cons c cs =>
        simp only [strLtChars] at h1 h2 ⊢
        by_cases hab : a.toNat < b.toNat
        · by_cases hbc : b.toNat < c.toNat
          · simp [show a.toNat < c.toNat by omega]
          · by_cases hcb : c.toNat < b.toNat
            · simp [hbc, hcb] at h2
            · simp [show a.toNat < c.toNat by omega]
        · by_cases hba : b.toNat < a.toNat
          · simp [hab, hba] at h1
          · simp only [hab, hba, if_false] at h1
            by_cases hbc : b.toNat < c.toNat
            · simp [show a.toNat < c.toNat by omega]
            · by_cases hcb : c.toNat < b.toNat
              · simp [hbc, hcb] at h2
              · simp only [hbc, hcb, if_false] at h2
                have hac : ¬a.toNat < c.toNat := by omega
                have hca : ¬c.toNat < a.toNat := by omega
                simp only [hac, hca, if_false]
                exact ih bs cs h1 h2

theorem strLtB_trans (a b c : String) (h1 : strLtB a b = true) (h2 : strLtB b c = true) :
    strLtB a c = true :=
  strLtChars_trans a.data b.data c.data h1 h2

theorem mem_insertDesc (x d : String) (l : List String) :
    x ∈ insertDesc d l ↔ x = d ∨ x ∈ l := by
  induction l with
  | nil => simp [insertDesc]
  | cons e rest ih =>
    cases h : strLtB e d with
    | true =>
      simp only [insertDesc, h, if_true, List.mem_cons]
    | false =>
      simp only [insertDesc, h, List.mem_cons, ih]
      simp only [Bool.false_eq_true, if_false, List.mem_cons, ih]
      tauto

theorem mem_sortDesc (x : String) (l : List String) : x ∈ sortDesc l ↔ x ∈ l := by
  induction l with
  | nil => simp [sortDesc]
  | cons a rest ih =>
    have hs : sortDesc (a :: rest) = insertDesc a (sortDesc rest) := rfl
    rw [hs, mem_insertDesc]
    simp [List.mem_cons, ih]

theorem sortDesc_head_ub (l : List String) : ∀ hd : String, ∀ t : List String,
    sortDesc l = hd :: t → hd ∈ l ∧ ∀ x ∈ l, strLtB hd x = false := by
  induction l with
  | nil => intro hd t heq; simp [sortDesc] at heq
  | cons a rest ih =>
    intro hd t heq
    have hs : sortDesc (a :: rest) = insertDesc a (sortDesc rest) := rfl
    rw [hs] at heq
    cases hrest : sortDesc rest with
    | nil =>
      rw [hrest] at heq
      have hrnil : rest = [] := by
        cases hrl : rest with
        | nil => rfl
        | cons r rs =>
          have hmem : r ∈ sortDesc rest := (mem_sortDesc r rest).mpr (by simp [hrl])
          rw [hrest] at hmem
          simp at hmem
      simp only [insertDesc] at heq
      have hha : a = hd := by
        have hh := congrArg (fun ll => ll.headD "") heq
        simpa using hh
      subst hha
      subst hrnil
      refine ⟨by simp, ?_⟩
      intro x hx
      simp only [List.mem_singleton] at hx
      subst hx
      exact strLtB_irrefl x
    | cons e t' =>
      rw [hrest] at heq
      obtain ⟨he_mem, hub⟩ := ih e t' hrest
      by_cases hlt : strLtB e a = true
      · simp only [insertDesc, hlt, if_true, List.cons.injEq] at heq
        have hha : a = hd := heq.1
        subst hha
        refine ⟨by simp, ?_⟩
        intro x hx
        rcases List.mem_cons.mp hx with rfl | hx'
        · exact strLtB_irrefl x
        · by_contra hax
          rw [Bool.not_eq_false] at hax
          have hex : strLtB e x = true := strLtB_trans e a x hlt hax
          rw [hub x hx'] at hex
          exact Bool.false_ne_true hex
      · rw [Bool.not_eq_true] at hlt
        simp only [insertDesc, hlt, Bool.false_eq_true, if_false, List.cons.injEq] at heq
        have hhe : e = hd := heq.1
        subst hhe
        refine ⟨List.mem_cons_of_mem a he_mem, ?_⟩
        intro x hx
        rcases List.mem_cons.mp hx with rfl | hx'
        · simpa using hlt
        · exact hub x hx'

theorem lookupJ_mem_keys (k : String) (l : List (String × JVal))
    (h : k ∈ l.map Prod.fst) : ∃ v, lookupJ k l = some v ∧ (k, v) ∈ l := by
  induction l with
  | nil => simp at h
  | cons kv rest ih =>
    by_cases hk : kv.fst = k
    · cases kv with
      | mk kf vf =>
        simp only at hk
        subst hk
        exact ⟨vf, by simp [lookupJ], List.mem_cons_self _ _⟩
    · have h' : k ∈ rest.map Prod.fst := by
        simp only [List.map_cons, List.mem_cons] at h
        rcases h with h | h
        · exact absurd h.symm hk
        · exact h
      obtain ⟨v, hv, hmem⟩ := ih h'
      exact ⟨v, by simp [lookupJ, hk, hv], List.mem_cons_of_mem _ hmem⟩

/- ### Claim theorems. -/

/-- C1: the unified time-series router (`fetch_time_series`, also reached
through `get_stock_time_series`) sends every fixed intraday interval tag to
the intraday operation regardless of the adjusted flag; each of the six
`(interval, adjusted)` pairs over daily/weekly/monthly selects its
documented underlying operation; every other interval value fails with an
`InvalidArgument` error (before any Data Source call, since the selected
operation is the only thing forwarded to the Data Source port). -/
theorem c1_time_series_routing (interval : String) (adjusted : Bool) :
    (interval ∈ intraday_intervals →
      fetch_time_series interval adjusted = .ok .intraday) ∧
    fetch_time_series "daily" false = .ok .daily ∧
    fetch_time_series "daily" true = .ok .daily_adjusted ∧
    fetch_time_series "weekly" false = .ok .weekly ∧
    fetch_time_series "weekly" true = .ok .weekly_adjusted ∧
    fetch_time_series "monthly" false = .ok .monthly ∧
    fetch_time_series "monthly" true = .ok .monthly_adjusted ∧
    (interval ∉ intraday_intervals → interval ≠ "daily" → interval ≠ "weekly" →
      interval ≠ "monthly" →
      fetch_time_series interval adjusted = .error ("Unsupported interval: " ++ interval)) := by
  refine ⟨?_, rfl, rfl, rfl, rfl, rfl, rfl, ?_⟩
  · intro h
    simp [fetch_time_series, h]
  · intro h h1 h2 h3
    simp [fetch_time_series, h, function_map, h1, h2, h3]

/-- C1 witness: concrete instances (intraday regardless of adjusted, and an
unsupported interval rejection). -/
theorem c1_time_series_routing_witness :
    fetch_time_series "5min" true = .ok .intraday ∧
    fetch_time_series "hourly" false = .error ("Unsupported interval: " ++ "hourly") := by
  refine ⟨(c1_time_series_routing "5min" true).1 (by decide), ?_⟩
  exact (c1_time_series_routing "hourly" false).2.2.2.2.2.2.2
    (by decide) (by decide) (by decide) (by decide)

/-- C6 counterexample: the claim says date-only intervals get a synthetic
midnight suffix appended, but a daily timestamp that is not exactly 10
characters long (here an already-complete 19-character one) passes through
unchanged — no suffix is appended. -/
theorem c6_normalize_timestamp_cex :
    normalize_timestamp "2024-01-01 00:00:00" "daily" = "2024-01-01 00:00:00" ∧
    normalize_timestamp "2024-01-01 00:00:00" "daily" ≠
      "2024-01-01 00:00:00" ++ " 00:00:00" := by
  constructor
  · rfl
  · decide

/-- C6 amended: for date-only intervals (daily, weekly, monthly) the
midnight suffix " 00:00:00" is appended only when the timestamp is exactly
10 characters (the YYYY-MM-DD shape); any other length passes through
unchanged.  For intraday intervals a 16-character timestamp gets ":00"
appended, a 19-character one passes through unchanged, and any other shape
falls back to appending the midnight suffix. -/
theorem c6_normalize_timestamp (timestamp interval : String) :
    ((interval = "daily" ∨ interval = "weekly" ∨ interval = "monthly") →
      (strLen timestamp = 10 →
        normalize_timestamp timestamp interval = timestamp ++ " 00:00:00") ∧
      (strLen timestamp ≠ 10 →
        normalize_timestamp timestamp interval = timestamp)) ∧
    (¬(interval = "daily" ∨ interval = "weekly" ∨ interval = "monthly") →
      (strLen timestamp = 16 →
        normalize_timestamp timestamp interval = timestamp ++ ":00") ∧
      (strLen timestamp = 19 →
        normalize_timestamp timestamp interval = timestamp) ∧
      (strLen timestamp ≠ 16 → strLen timestamp ≠ 19 →
        normalize_timestamp timestamp interval = timestamp ++ " 00:00:00")) := by
  constructor
  · intro hdate
    constructor
    · intro hl
      simp [normalize_timestamp, hdate, hl]
    · intro hl
      simp [normalize_timestamp, hdate, hl]
  · intro hdate
    refine ⟨?_, ?_, ?_⟩
    · intro hl
      simp [normalize_timestamp, hdate, hl]
    · intro hl
      have h16 : strLen timestamp ≠ 16 := by rw [hl]; decide
      simp [normalize_timestamp, hdate, hl, h16]
    · intro h16 h19
      simp [normalize_timestamp, hdate, h16, h19]

/-- C6 witness: concrete instances of each branch of the amended claim. -/
theorem c6_normalize_timestamp_witness :
    normalize_timestamp "2024-01-01" "daily" = "2024-01-01" ++ " 00:00:00" ∧
    normalize_timestamp "2024-01-02 09:30" "5min" = "2024-01-02 09:30" ++ ":00" ∧
    normalize_timestamp "2024-01-02 09:30:00" "5min" = "2024-01-02 09:30:00" := by
  refine ⟨(c6_normalize_timestamp "2024-01-01" "daily").1 (by decide) |>.1 (by decide), ?_, ?_⟩
  · exact ((c6_normalize_timestamp "2024-01-02 09:30" "5min").2 (by decide)).1 (by decide)
  · exact (((c6_normalize_timestamp "2024-01-02 09:30:00" "5min").2 (by decide)).2).1 (by decide)

/-- C8 counterexample: the claim says every discriminant router's error
message carries both the offending value and the list of supported values,
but the profile-type router's message ("Unsupported profile type: bogus")
carries only the offending value — neither supported value ("company",
"etf") occurs in it. -/
theorem c8_discriminant_error_cex :
    get_symbol_overview "bogus" = .error ("Unsupported profile type: " ++ "bogus") ∧
    strOccursIn "bogus" ("Unsupported profile type: " ++ "bogus") = true ∧
    strOccursIn "company" ("Unsupported profile type: " ++ "bogus") = false ∧
    strOccursIn "etf" ("Unsupported profile type: " ++ "bogus") = false := by
  refine ⟨rfl, ?_, ?_, ?_⟩ <;> decide

/-- C8 amended: an unsupported discriminant value makes each router fail
with an `InvalidArgument` error raised before any Data Source call, whose
message carries the offending value (the statement-type router reports the
lower-cased value it matched on); only the statement-type router's message
additionally lists the supported set — the interval and profile-type
routers name just the offending value. -/
theorem c8_invalid_discriminants (interval statement_type profile_type : String)
    (adjusted : Bool) :
    (interval ∉ intraday_intervals → interval ≠ "daily" → interval ≠ "weekly" →
      interval ≠ "monthly" →
      ∃ msg, fetch_time_series interval adjusted = .error msg ∧
        strOccursIn interval msg = true) ∧
    (strToLower statement_type ≠ "all" → strToLower statement_type ≠ "income" →
      strToLower statement_type ≠ "balance" → strToLower statement_type ≠ "cash_flow" →
      ∃ msg, get_financial_statements statement_type = .error msg ∧
        strOccursIn (strToLower statement_type) msg = true ∧
        strOccursIn "income" msg = true ∧ strOccursIn "balance" msg = true ∧
        strOccursIn "cash_flow" msg = true ∧ strOccursIn "all" msg = true) ∧
    (profile_type ≠ "company" → profile_type ≠ "etf" →
      ∃ msg, get_symbol_overview profile_type = .error msg ∧
        strOccursIn profile_type msg = true) := by
  refine ⟨?_, ?_, ?_⟩
  · intro h h1 h2 h3
    refine ⟨"Unsupported interval: " ++ interval, ?_, ?_⟩
    · simp [fetch_time_series, h, function_map, h1, h2, h3]
    · exact strOccursIn_append_self "Unsupported interval: " interval
  · intro h1 h2 h3 h4
    refine ⟨"Unsupported statement type: " ++ strToLower statement_type ++
      ". Supported types: 'income', 'balance', 'cash_flow', 'all'", ?_, ?_, ?_, ?_, ?_, ?_⟩
    · simp [get_financial_statements, h1, h2, h3, h4]
    · exact strOccursIn_extend_right _ _ _
        (strOccursIn_append_self "Unsupported statement type: " (strToLower statement_type))
    · exact strOccursIn_extend_left _ _ _ (by decide)
    · exact strOccursIn_extend_left _ _ _ (by decide)
    · exact strOccursIn_extend_left _ _ _ (by decide)
    · exact strOccursIn_extend_left _ _ _ (by decide)
  · intro h1 h2
    refine ⟨"Unsupported profile type: " ++ profile_type, ?_, ?_⟩
    · simp [get_symbol_overview, h1, h2]
    · exact strOccursIn_append_self "Unsupported profile type: " profile_type

/-- C8 witness: concrete unsupported discriminants for all three routers. -/
theorem c8_invalid_discriminants_witness :
    (∃ msg, fetch_time_series "hourly" true = .error msg ∧
      strOccursIn "hourly" msg = true) ∧
    (∃ msg, get_financial_statements "EQUITY" = .error msg ∧
      strOccursIn (strToLower "EQUITY") msg = true ∧
      strOccursIn "income" msg = true ∧ strOccursIn "balance" msg = true ∧
      strOccursIn "cash_flow" msg = true ∧ strOccursIn "all" msg = true) ∧
    (∃ msg, get_symbol_overview "fund" = .error msg ∧
      strOccursIn "fund" msg = true) := by
  refine ⟨?_, ?_, ?_⟩
  · exact (c8_invalid_discriminants "hourly" "EQUITY" "fund" true).1
      (by decide) (by decide) (by decide) (by decide)
  · exact (c8_invalid_discriminants "hourly" "EQUITY" "fund" true).2.1
      (by decide) (by decide) (by decide) (by decide)
  · exact (c8_invalid_discriminants "hourly" "EQUITY" "fund" true).2.2
      (by decide) (by decide)

theorem expandComponents_of_isObj (multiName interval name ts : String) (v : JVal)
    (h : isObj v = true) :
    expandComponents multiName interval name ts v =
      some ((componentsOf v).map (mkObs multiName interval name ts)) := by
  cases v <;> simp_all [isObj, expandComponents, componentsOf]

theorem flatMap_length_const {α β : Type} (g : α → List β) (n : Nat) (l : List α)
    (h : ∀ e ∈ l, (g e).length = n) : (l.flatMap g).length = n * l.length := by
  induction l with
  | nil => simp
  | cons a rest ih =>
    have ha := h a (by simp)
    have hrest := ih (fun x hx => h x (by simp [hx]))
    simp only [List.flatMap_cons, List.length_append, ha, hrest, List.length_cons]
    ring

theorem rowsForIndicator_of_not_dictWithItems (multiName interval name : String)
    (data : JVal) (h : dictWithItems data = false) :
    rowsForIndicator multiName interval name data = some [] := by
  cases data with
  | obj fields =>
    have hnone : lookupJ "items" fields = none := by
      cases hx : lookupJ "items" fields with
      | none => rfl
      | some v => simp [dictWithItems, hasKeyJ, hx] at h
    simp [rowsForIndicator, hnone]
  | s v => rfl
  | num v => rfl
  | bool v => rfl
  | null => rfl
  | arr v => rfl

/-- C3: in every aggregator pack, an indicator result carrying more than 20
timestamp entries contributes exactly the expansion of the first 20 entries
in upstream order (the cap is applied to entries before component
expansion), and the emitted rows cover at most 20 distinct timestamps. -/
theorem c3_pack_timestamp_cap (multiName interval name : String)
    (fields entries : List (String × JVal))
    (hlk : lookupJ "items" fields = some (.obj entries))
    (_hlen : 20 < entries.length)
    (hwf : ∀ e ∈ entries.take 20, isObj e.snd = true) :
    rowsForIndicator multiName interval name (.obj fields) =
      some ((entries.take 20).flatMap
        (fun e => (componentsOf e.snd).map (mkObs multiName interval name e.fst))) ∧
    ∀ rs, rowsForIndicator multiName interval name (.obj fields) = some rs →
      (rs.map (fun r => r.timestamp)).toFinset.card ≤ 20 := by
  have hmain : rowsForIndicator multiName interval name (.obj fields) =
      some ((entries.take 20).flatMap
        (fun e => (componentsOf e.snd).map (mkObs multiName interval name e.fst))) := by
    simp only [rowsForIndicator, hlk]
    exact collectRows_map_all_some _ _ _
      (fun e he => expandComponents_of_isObj multiName interval name e.fst e.snd (hwf e he))
  refine ⟨hmain, ?_⟩
  intro rs hrs
  rw [hmain, Option.some.injEq] at hrs
  subst hrs
  have hsub : ∀ x ∈ ((entries.take 20).flatMap
      (fun e => (componentsOf e.snd).map (mkObs multiName interval name e.fst))).map
        (fun r => r.timestamp),
      x ∈ (entries.take 20).map (fun e => normalize_timestamp e.fst interval) := by
    intro x hx
    simp only [List.mem_map] at hx
    obtain ⟨r, hr, rfl⟩ := hx
    simp only [List.mem_flatMap] at hr
    obtain ⟨e, he, hre⟩ := hr
    simp only [List.mem_map] at hre
    obtain ⟨kv, hkv, rfl⟩ := hre
    simp only [List.mem_map]
    exact ⟨e, he, rfl⟩
  calc (((entries.take 20).flatMap
        (fun e => (componentsOf e.snd).map (mkObs multiName interval name e.fst))).map
          (fun r => r.timestamp)).toFinset.card
      ≤ ((entries.take 20).map
          (fun e => normalize_timestamp e.fst interval)).toFinset.card := by
        apply Finset.card_le_card
        intro x hx
        rw [List.mem_toFinset] at hx ⊢
        exact hsub x hx
    _ ≤ ((entries.take 20).map
          (fun e => normalize_timestamp e.fst interval)).length := List.toFinset_card_le _
    _ = (entries.take 20).length := List.length_map _ _
    _ ≤ 20 := by rw [List.length_take]; exact Nat.min_le_left _ _

/-- C3 witness: an items mapping with 21 entries (single-component rows)
contributes exactly the 21st-entry-free expansion of the first 20, with at
most 20 distinct timestamps. -/
theorem c3_pack_timestamp_cap_witness :
    rowsForIndicator "MACD" "daily" "SMA"
      (.obj [("items", .obj ((List.range 21).map
        (fun i => (toString i, JVal.obj [("SMA", .s "1.0")]))))]) =
      some ((((List.range 21).map
          (fun i => (toString i, JVal.obj [("SMA", .s "1.0")]))).take 20).flatMap
        (fun e => (componentsOf e.snd).map (mkObs "MACD" "daily" "SMA" e.fst))) := by
  exact (c3_pack_timestamp_cap "MACD" "daily" "SMA"
    [("items", .obj ((List.range 21).map
      (fun i => (toString i, JVal.obj [("SMA", .s "1.0")]))))]
    ((List.range 21).map (fun i => (toString i, JVal.obj [("SMA", .s "1.0")])))
    (by rfl) (by decide) (by decide)).1

/-- C4: each retained timestamp entry expands to exactly one row per
component field it carries; in particular a MACD result whose retained
entries each carry 3 component fields yields exactly `3 * T` rows across
the `T` retained timestamps, all tagged with indicator "macd". -/
theorem c4_macd_component_expansion (interval : String)
    (fields entries : List (String × JVal))
    (hlk : lookupJ "items" fields = some (.obj entries))
    (hwf : ∀ e ∈ entries.take 20,
      isObj e.snd = true ∧ (componentsOf e.snd).length = 3) :
    (∀ ts : String, ∀ comps : List (String × JVal),
      expandComponents "MACD" interval "MACD" ts (.obj comps) =
        some (comps.map (mkObs "MACD" interval "MACD" ts)) ∧
      (comps.map (mkObs "MACD" interval "MACD" ts)).length = comps.length) ∧
    ∃ rs, rowsForIndicator "MACD" interval "MACD" (.obj fields) = some rs ∧
      rs.length = 3 * (entries.take 20).length ∧
      ∀ r ∈ rs, r.indicator = "macd" := by
  refine ⟨fun ts comps => ⟨rfl, List.length_map _ _⟩, ?_⟩
  have hmain : rowsForIndicator "MACD" interval "MACD" (.obj fields) =
      some ((entries.take 20).flatMap
        (fun e => (componentsOf e.snd).map (mkObs "MACD" interval "MACD" e.fst))) := by
    simp only [rowsForIndicator, hlk]
    exact collectRows_map_all_some _ _ _
      (fun e he => expandComponents_of_isObj "MACD" interval "MACD" e.fst e.snd (hwf e he).1)
  refine ⟨_, hmain, ?_, ?_⟩
  · apply flatMap_length_const
    intro e he
    rw [List.length_map]
    exact (hwf e he).2
  · intro r hr
    simp only [List.mem_flatMap] at hr
    obtain ⟨e, he, hre⟩ := hr
    simp only [List.mem_map] at hre
    obtain ⟨kv, hkv, rfl⟩ := hre
    show strToLower "MACD" = "macd"
    decide

/-- C4 witness: two retained MACD timestamps with 3 components each yield
exactly 6 rows, all with indicator "macd". -/
theorem c4_macd_component_expansion_witness :
    ∃ rs, rowsForIndicator "MACD" "daily" "MACD"
      (.obj [("items", .obj
        [("2024-01-01", .obj [("MACD", .s "1"), ("MACD_Signal", .s "2"),
           ("MACD_Hist", .s "3")]),
         ("2024-01-02", .obj [("MACD", .s "4"), ("MACD_Signal", .s "5"),
           ("MACD_Hist", .s "6")])])]) = some rs ∧
      rs.length = 3 * 2 ∧ ∀ r ∈ rs, r.indicator = "macd" := by
  obtain ⟨rs, h1, h2, h3⟩ := (c4_macd_component_expansion "daily"
    [("items", .obj
      [("2024-01-01", .obj [("MACD", .s "1"), ("MACD_Signal", .s "2"),
         ("MACD_Hist", .s "3")]),
       ("2024-01-02", .obj [("MACD", .s "4"), ("MACD_Signal", .s "5"),
         ("MACD_Hist", .s "6")])])]
    [("2024-01-01", .obj [("MACD", .s "1"), ("MACD_Signal", .s "2"),
       ("MACD_Hist", .s "3")]),
     ("2024-01-02", .obj [("MACD", .s "4"), ("MACD_Signal", .s "5"),
       ("MACD_Hist", .s "6")])]
    (by rfl) (by decide)).2
  refine ⟨rs, h1, ?_, h3⟩
  rw [h2]
  decide

/-- C10 (implicit): an indicator whose Data Source result is not a mapping
containing an "items" key contributes zero rows and raises no error; the
pack still returns its `{metadata, items}` result built from the remaining
indicators (shown for the trend pack's MACD slot and the volatility pack's
SAR slot). -/
theorem c10_malformed_indicator_skipped (symbol interval preset : String)
    (smaR emaR wmaR macdR bbandsR atrR sarR : JVal)
    (hm : dictWithItems macdR = false) (hs : dictWithItems sarR = false) :
    (∀ multiName name : String,
      rowsForIndicator multiName interval name macdR = some []) ∧
    get_trend_indicators symbol interval preset smaR emaR wmaR macdR =
      (packItems "MACD" interval [("SMA", smaR), ("EMA", emaR), ("WMA", wmaR)]).map
        (fun items => ⟨⟨symbol, interval, preset⟩, items⟩) ∧
    get_volatility_indicators symbol interval preset bbandsR atrR sarR =
      (packItems "BBANDS" interval [("BBANDS", bbandsR), ("ATR", atrR)]).map
        (fun items => ⟨⟨symbol, interval, preset⟩, items⟩) := by
  refine ⟨fun multiName name =>
    rowsForIndicator_of_not_dictWithItems multiName interval name macdR hm, ?_, ?_⟩
  · unfold get_trend_indicators
    congr 1
    unfold packItems
    simp only [List.map_cons, List.map_nil]
    rw [rowsForIndicator_of_not_dictWithItems "MACD" interval "MACD" macdR hm]
    exact collectRows_append_some_nil
      [rowsForIndicator "MACD" interval "SMA" smaR,
       rowsForIndicator "MACD" interval "EMA" emaR,
       rowsForIndicator "MACD" interval "WMA" wmaR]
  · unfold get_volatility_indicators
    congr 1
    unfold packItems
    simp only [List.map_cons, List.map_nil]
    rw [rowsForIndicator_of_not_dictWithItems "BBANDS" interval "SAR" sarR hs]
    exact collectRows_append_some_nil
      [rowsForIndicator "BBANDS" interval "BBANDS" bbandsR,
       rowsForIndicator "BBANDS" interval "ATR" atrR]

/-- C10 witness: a non-dict MACD result (an error string) and a dict SAR
result lacking "items" are skipped; both packs still return metadata plus
the rows of the remaining indicators. -/
theorem c10_malformed_indicator_skipped_witness :
    (∀ multiName name : String,
      rowsForIndicator multiName "daily" name (.s "rate limited") = some []) ∧
    get_trend_indicators "IBM" "daily" "standard"
      (.obj [("items", .obj [("2024-01-01", .obj [("SMA", .s "7")])])])
      (.obj []) (.obj []) (.s "rate limited") =
      (packItems "MACD" "daily"
        [("SMA", .obj [("items", .obj [("2024-01-01", .obj [("SMA", .s "7")])])]),
         ("EMA", .obj []), ("WMA", .obj [])]).map
        (fun items => ⟨⟨"IBM", "daily", "standard"⟩, items⟩) ∧
    get_volatility_indicators "IBM" "daily" "standard"
      (.obj []) (.obj []) (.obj [("note", .s "no data")]) =
      (packItems "BBANDS" "daily" [("BBANDS", .obj []), ("ATR", .obj [])]).map
        (fun items => ⟨⟨"IBM", "daily", "standard"⟩, items⟩) := by
  exact c10_malformed_indicator_skipped "IBM" "daily" "standard"
    (.obj [("items", .obj [("2024-01-01", .obj [("SMA", .s "7")])])])
    (.obj []) (.obj []) (.s "rate limited")
    (.obj []) (.obj []) (.obj [("note", .s "no data")]) rfl rfl

theorem filterMap_congr_some {α β : Type} (f : α → Option β) (g : α → β) (l : List α)
    (h : ∀ x ∈ l, f x = some (g x)) : l.filterMap f = l.map g := by
  induction l with
  | nil => rfl
  | cons a rest ih =>
    simp [List.filterMap_cons, h a (by simp), ih (fun x hx => h x (by simp [hx]))]

/-- C5 counterexample: the claim says a data line whose comma-split field
count does not match the header is excluded, but `csv_to_listings` (whose
expected header has 7 fields) keeps a line with 8 fields, decoding its
first seven — the mismatched line is not excluded. -/
theorem c5_tabular_decoders_cex :
    (lineFields "a,b,c,d,e,f,g,h").length = 8 ∧
    (8 : Nat) ≠ 7 ∧
    csv_to_listings "h\na,b,c,d,e,f,g,h" =
      [⟨"a", "b", "c", "d", "e", "f", "g"⟩] := by
  refine ⟨by decide, by decide, by decide⟩

/-- C5 amended: empty input or a lone header line decodes to an empty
sequence for both decoders (a valid result, not a failure); when every data
line's field count matches the header, `csv_to_list` yields exactly one
record per data line in original order; a `csv_to_list` line whose field
count differs from the header is excluded without error; `csv_to_listings`
excludes only lines with fewer than 7 fields and keeps lines with 7 or
more, taking the first seven cleaned fields. -/
theorem c5_tabular_decoders (csv_data : String) (headers : List String) (line : String) :
    ((strSplitOnChar '\n' (strTrim csv_data)).length ≤ 1 →
      csv_to_list csv_data headers = [] ∧ csv_to_listings csv_data = []) ∧
    (1 < (strSplitOnChar '\n' (strTrim csv_data)).length →
      (∀ l ∈ (strSplitOnChar '\n' (strTrim csv_data)).drop 1,
        (lineFields l).length = headers.length) →
      csv_to_list csv_data headers =
        ((strSplitOnChar '\n' (strTrim csv_data)).drop 1).map
          (fun l => headers.zip (lineFields l)) ∧
      (csv_to_list csv_data headers).length =
        (strSplitOnChar '\n' (strTrim csv_data)).length - 1) ∧
    ((lineFields line).length ≠ headers.length → parseLine headers line = none) ∧
    ((parseListing line).isSome = true ↔ 7 ≤ (lineFields line).length) := by
  refine ⟨?_, ?_, ?_, ?_⟩
  · intro h
    constructor
    · simp only [csv_to_list]
      rw [if_pos h]
    · simp only [csv_to_listings]
      rw [if_pos h]
  · intro h hall
    have hnot : ¬((strSplitOnChar '\n' (strTrim csv_data)).length ≤ 1) := by omega
    have heq : csv_to_list csv_data headers =
        ((strSplitOnChar '\n' (strTrim csv_data)).drop 1).map
          (fun l => headers.zip (lineFields l)) := by
      simp only [csv_to_list]
      rw [if_neg hnot]
      apply filterMap_congr_some
      intro x hx
      simp only [parseLine]
      rw [if_pos (hall x hx)]
    refine ⟨heq, ?_⟩
    rw [heq, List.length_map, List.length_drop]
  · intro h
    simp only [parseLine]
    rw [if_neg h]
  · constructor
    · intro h
      by_contra hc
      simp only [parseListing] at h
      rw [if_neg hc] at h
      simp at h
    · intro h
      simp only [parseListing]
      rw [if_pos h]
      rfl

/-- C5 witness: an empty input and a lone header line decode to empty; a
two-data-line input with matching field counts decodes to two records in
order; a 3-field line is excluded against a 2-field header; a 7-field line
is kept by the listings decoder. -/
theorem c5_tabular_decoders_witness :
    (csv_to_list "" ["x", "y"] = [] ∧ csv_to_listings "" = []) ∧
    (csv_to_list "x,y\n1,2\n3,4" ["x", "y"] =
      [[("x", "1"), ("y", "2")], [("x", "3"), ("y", "4")]] ∧
      (csv_to_list "x,y\n1,2\n3,4" ["x", "y"]).length = 2) ∧
    parseLine ["x", "y"] "1,2,3" = none ∧
    (parseListing "a,b,c,d,e,f,g").isSome = true := by
  refine ⟨?_, ?_, ?_, ?_⟩
  · exact (c5_tabular_decoders "" ["x", "y"] "").1 (by decide)
  · have h := (c5_tabular_decoders "x,y\n1,2\n3,4" ["x", "y"] "").2.1
      (by decide) (by decide)
    constructor
    · rw [h.1]
      decide
    · rw [h.2]
      decide
  · exact (c5_tabular_decoders "" ["x", "y"] "1,2,3").2.2.1 (by decide)
  · exact ((c5_tabular_decoders "" [] "a,b,c,d,e,f,g").2.2.2).mpr (by decide)

theorem hasKeyJ_iff_exists (k : String) (l : List (String × JVal)) :
    hasKeyJ k l = true ↔ ∃ v, (k, v) ∈ l := by
  induction l with
  | nil => simp [hasKeyJ, lookupJ]
  | cons kv rest ih =>
    by_cases hk : kv.fst = k
    · cases kv with
      | mk a b =>
        simp only at hk
        subst hk
        constructor
        · intro _
          exact ⟨b, List.mem_cons_self _ _⟩
        · intro _
          simp [hasKeyJ, lookupJ]
    · simp only [hasKeyJ, lookupJ, hk, if_false]
      rw [show (lookupJ k rest).isSome = hasKeyJ k rest from rfl, ih]
      constructor
      · rintro ⟨v, hv⟩
        exact ⟨v, List.mem_cons_of_mem _ hv⟩
      · rintro ⟨v, hv⟩
        rcases List.mem_cons.mp hv with heq | hmem
        · exact absurd (congrArg Prod.fst heq.symm) hk
        · exact ⟨v, hmem⟩

theorem renamed_keys_subset (mappings : List (String × String)) (r : List (String × JVal)) :
    ∀ kv ∈ mappings.filterMap (fun m => (lookupJ m.fst r).map (fun v => (m.snd, v))),
      kv.fst ∈ mappings.map Prod.snd := by
  intro kv hkv
  simp only [List.mem_filterMap] at hkv
  obtain ⟨m, hm, hmap⟩ := hkv
  cases hl : lookupJ m.fst r with
  | none => rw [hl] at hmap; simp at hmap
  | some v =>
    rw [hl] at hmap
    simp only [Option.map_some', Option.some.injEq] at hmap
    subst hmap
    exact List.mem_map_of_mem Prod.snd hm

theorem renamed_hasKey (mappings : List (String × String)) (r : List (String × JVal))
    (hnodup : (mappings.map Prod.snd).Nodup) (ok nk : String)
    (hmem : (ok, nk) ∈ mappings) :
    hasKeyJ nk (mappings.filterMap
      (fun m => (lookupJ m.fst r).map (fun v => (m.snd, v)))) =
      (lookupJ ok r).isSome := by
  induction mappings with
  | nil => simp at hmem
  | cons m rest ih =>
    simp only [List.map_cons, List.nodup_cons] at hnodup
    rcases List.mem_cons.mp hmem with heq | hmem'
    · have hok : m.fst = ok := congrArg Prod.fst heq.symm
      have hnk : m.snd = nk := congrArg Prod.snd heq.symm
      subst hok
      subst hnk
      cases hl : lookupJ m.fst r with
      | none =>
        rw [List.filterMap_cons]
        simp only [hl, Option.map_none', Option.isSome_none]
        by_contra hc
        rw [Bool.not_eq_false] at hc
        obtain ⟨v, hv⟩ := (hasKeyJ_iff_exists _ _).mp hc
        have := renamed_keys_subset rest r (m.snd, v) hv
        exact hnodup.1 this
      | some v =>
        rw [List.filterMap_cons]
        simp only [hl, Option.map_some', Option.isSome_some]
        simp [hasKeyJ, lookupJ]
    · have hne : m.snd ≠ nk := by
        intro hc
        apply hnodup.1
        rw [hc]
        exact List.mem_map_of_mem Prod.snd hmem'
      cases hl : lookupJ m.fst r with
      | none =>
        rw [List.filterMap_cons]
        simp only [hl, Option.map_none']
        exact ih hnodup.2 hmem'
      | some v =>
        rw [List.filterMap_cons]
        simp only [hl, Option.map_some']
        simp only [hasKeyJ, lookupJ, hne, if_false]
        exact ih hnodup.2 hmem'

/-- C7 counterexample: the claim says every key normalizer omits absent
upstream keys, never emitting a placeholder — but the crypto quote
normalizer, given a payload whose metadata block and latest entry are both
empty (no upstream name, market name, refresh time, zone, or OHLCV keys),
still populates every canonical key, backfilling the empty string (or the
request's own symbol/market arguments) as placeholders. -/
theorem c7_closed_schema_cex :
    normalize_crypto_quote "BTC" "USD"
      (.obj [("Meta Data", .obj []),
             ("Time Series (Digital Currency Daily)",
               .obj [("2024-01-02", .obj [])])]) =
      some (.ok ⟨.s "BTC", .s "", .s "USD", .s "", .s "", .s "",
        ⟨"2024-01-02", .s "", .s "", .s "", .s "", .s ""⟩⟩) := rfl

/-- C7 amended: the FX rate normalizer draws its output keys only from the
fixed canonical set, and a canonical key is present exactly when its
documented upstream key is present (absent upstream keys are omitted, never
defaulted); in particular the documented example holds.  The crypto quote
normalizer, in contrast, always emits its full fixed key set, filling
absent upstream fields with defaults (empty strings, or the request's
symbol/market). -/
theorem c7_fx_closed_schema (fields rfields : List (String × JVal))
    (h : lookupJ "Realtime Currency Exchange Rate" fields = some (.obj rfields)) :
    ∃ out, normalize_fx_rate_keys (.obj fields) = some (.obj out) ∧
      (∀ kv ∈ out, kv.fst ∈ fx_key_mappings.map Prod.snd) ∧
      (∀ ok nk, (ok, nk) ∈ fx_key_mappings →
        hasKeyJ nk out = (lookupJ ok rfields).isSome) ∧
      normalize_fx_rate_keys (.obj [("Realtime Currency Exchange Rate",
        .obj [("1. From_Currency Code", .s "USD"), ("5. Exchange Rate", .s "0.92")])]) =
        some (.obj [("from_currency_code", .s "USD"), ("exchange_rate", .s "0.92")]) := by
  refine ⟨fx_key_mappings.filterMap
    (fun m => (lookupJ m.fst rfields).map (fun v => (m.snd, v))), ?_, ?_, ?_, rfl⟩
  · simp [normalize_fx_rate_keys, h]
  · exact renamed_keys_subset fx_key_mappings rfields
  · intro ok nk hmem
    exact renamed_hasKey fx_key_mappings rfields (by decide) ok nk hmem

/-- C7 witness: on the documented example payload the normalizer emits
exactly the two present keys; `exchange_rate` is present, `bid_price`
(whose upstream key is absent) is not. -/
theorem c7_fx_closed_schema_witness :
    ∃ out, normalize_fx_rate_keys (.obj [("Realtime Currency Exchange Rate",
      .obj [("1. From_Currency Code", .s "USD"), ("5. Exchange Rate", .s "0.92")])]) =
      some (.obj out) ∧
      hasKeyJ "exchange_rate" out = true ∧ hasKeyJ "bid_price" out = false := by
  obtain ⟨out, hout, -, hpres, -⟩ := c7_fx_closed_schema
    [("Realtime Currency Exchange Rate",
      .obj [("1. From_Currency Code", .s "USD"), ("5. Exchange Rate", .s "0.92")])]
    [("1. From_Currency Code", .s "USD"), ("5. Exchange Rate", .s "0.92")]
    (by rfl)
  refine ⟨out, hout, ?_, ?_⟩
  · rw [hpres "5. Exchange Rate" "exchange_rate" (by decide)]
    rfl
  · rw [hpres "8. Bid Price" "bid_price" (by decide)]
    rfl

/-- C9: if no top-level key of the decoded crypto payload contains both
"Time Series" and "Digital Currency", `get_current_crypto_quote`'s
normalizer raises the `MalformedUpstreamShape` error ("Time series data not
found in response") instead of returning a partial result; when such a
container is present with at least one date entry (and the payload is
otherwise well-shaped), it returns the normalized quote whose date is the
most recent (lexicographically greatest) key, without raising. -/
theorem c9_crypto_quote_container (symbol market k : String)
    (fields entries : List (String × JVal)) :
    (fields.find? cryptoTsPred = none →
      normalize_crypto_quote symbol market (.obj fields) =
        some (.error "Time series data not found in response")) ∧
    (fields.find? cryptoTsPred = some (k, .obj entries) → entries ≠ [] →
      (∀ e ∈ entries, isObj e.snd = true) →
      (∃ meta, (lookupJ "Meta Data" fields).getD (.obj []) = .obj meta) →
      ∃ q, normalize_crypto_quote symbol market (.obj fields) = some (.ok q) ∧
        q.current_quote.date ∈ entries.map Prod.fst ∧
        ∀ d ∈ entries.map Prod.fst, strLtB q.current_quote.date d = false) := by
  constructor
  · intro h
    simp [normalize_crypto_quote, h]
  · intro hfind hne hvals hmeta
    obtain ⟨meta, hmeta⟩ := hmeta
    cases hsort : sortDesc (entries.map Prod.fst) with
    | nil =>
      exfalso
      cases entries with
      | nil => exact hne rfl
      | cons e0 rest =>
        have hmem : e0.fst ∈ sortDesc ((e0 :: rest).map Prod.fst) :=
          (mem_sortDesc _ _).mpr (by simp)
        rw [hsort] at hmem
        simp at hmem
    | cons latest rest =>
      obtain ⟨hlmem, hub⟩ := sortDesc_head_ub (entries.map Prod.fst) latest rest hsort
      obtain ⟨v, hv, hvmem⟩ := lookupJ_mem_keys latest entries hlmem
      have hobj : isObj v = true := hvals (latest, v) hvmem
      cases v with
      | obj latestData =>
        refine ⟨⟨(lookupJ "2. Digital Currency Code" meta).getD (.s symbol),
          (lookupJ "3. Digital Currency Name" meta).getD (.s ""),
          (lookupJ "4. Market Code" meta).getD (.s market),
          (lookupJ "5. Market Name" meta).getD (.s ""),
          (lookupJ "6. Last Refreshed" meta).getD (.s ""),
          (lookupJ "7. Time Zone" meta).getD (.s ""),
          ⟨latest,
           (lookupJ "1. open" latestData).getD (.s ""),
           (lookupJ "2. high" latestData).getD (.s ""),
           (lookupJ "3. low" latestData).getD (.s ""),
           (lookupJ "4. close" latestData).getD (.s ""),
           (lookupJ "5. volume" latestData).getD (.s "")⟩⟩, ?_, hlmem, hub⟩
        simp only [normalize_crypto_quote, hfind, hsort, hmeta, hv]
      | s x => simp [isObj] at hobj
      | num x => simp [isObj] at hobj
      | bool x => simp [isObj] at hobj
      | null => simp [isObj] at hobj
      | arr x => simp [isObj] at hobj

/-- C9 witness: a payload without the required container raises the
malformed-shape error; a payload with three dated entries returns the quote
for the greatest date without raising. -/
theorem c9_crypto_quote_container_witness :
    (normalize_crypto_quote "BTC" "USD" (.obj [("Meta Data", .obj [])]) =
      some (.error "Time series data not found in response")) ∧
    ∃ q, normalize_crypto_quote "BTC" "USD"
      (.obj [("Meta Data", .obj []),
             ("Time Series (Digital Currency Daily)",
               .obj [("2024-01-01", .obj []), ("2024-01-03", .obj []),
                     ("2024-01-02", .obj [])])]) = some (.ok q) ∧
      q.current_quote.date ∈
        ([("2024-01-01", JVal.obj []), ("2024-01-03", JVal.obj []),
          ("2024-01-02", JVal.obj [])]).map Prod.fst ∧
      ∀ d ∈ ([("2024-01-01", JVal.obj []), ("2024-01-03", JVal.obj []),
          ("2024-01-02", JVal.obj [])]).map Prod.fst,
        strLtB q.current_quote.date d = false := by
  constructor
  · exact (c9_crypto_quote_container "BTC" "USD" "" [("Meta Data", .obj [])] []).1 rfl
  · exact (c9_crypto_quote_container "BTC" "USD"
      "Time Series (Digital Currency Daily)"
      [("Meta Data", .obj []),
       ("Time Series (Digital Currency Daily)",
         .obj [("2024-01-01", .obj []), ("2024-01-03", .obj []),
               ("2024-01-02", .obj [])])]
      [("2024-01-01", .obj []), ("2024-01-03", .obj []), ("2024-01-02", .obj [])]).2
      (by rfl) (by simp) (by decide) ⟨[], rfl⟩

theorem ensureKey_of_hasKey (k : String) (v : JVal) (f : List (String × JVal))
    (h : hasKeyJ k f = true) : ensureKey k v f = f := by
  unfold ensureKey
  rw [if_pos h]

theorem analyticsPrepare_lookup_other (req : AnalyticsRequest) (isS : Bool)
    (fields : List (String × JVal)) (k : String)
    (h1 : k ≠ "window_type") (h2 : k ≠ "symbols") (h3 : k ≠ "data_format")
    (h4 : k ≠ "results") (h5 : k ≠ "metadata") :
    lookupJ k (analyticsPrepare req isS fields) = lookupJ k fields := by
  simp only [analyticsPrepare]
  rw [lookupJ_ensureKey_ne _ _ _ _ h5, lookupJ_ensureKey_ne _ _ _ _ h4]
  cases isS
  · simp only [Bool.false_eq_true, if_false]
    rw [lookupJ_ensureKey_ne _ _ _ _ h3, lookupJ_setKey_ne _ _ _ _ h2,
      lookupJ_setKey_ne _ _ _ _ h1]
  · simp only [if_true]
    rw [lookupJ_setKey_ne _ _ _ _ h2, lookupJ_setKey_ne _ _ _ _ h1]

theorem analyticsPrepare_window_type (req : AnalyticsRequest) (isS : Bool)
    (fields : List (String × JVal)) :
    lookupJ "window_type" (analyticsPrepare req isS fields) =
      some (.s (if isS then "sliding" else "fixed")) := by
  simp only [analyticsPrepare]
  rw [lookupJ_ensureKey_ne _ _ _ _ (by decide), lookupJ_ensureKey_ne _ _ _ _ (by decide)]
  cases isS
  · simp only [Bool.false_eq_true, if_false]
    rw [lookupJ_ensureKey_ne _ _ _ _ (by decide), lookupJ_setKey_ne _ _ _ _ (by decide),
      lookupJ_setKey_self]
  · simp only [if_true]
    rw [lookupJ_setKey_ne _ _ _ _ (by decide), lookupJ_setKey_self]

theorem analyticsPrepare_results_hasKey (req : AnalyticsRequest) (isS : Bool)
    (fields : List (String × JVal)) :
    hasKeyJ "results" (analyticsPrepare req isS fields) = true := by
  simp only [analyticsPrepare]
  rw [hasKeyJ_ensureKey_ne _ _ _ _ (by decide)]
  exact hasKeyJ_ensureKey_self _ _ _

theorem analyticsPrepare_results_absent (req : AnalyticsRequest) (isS : Bool)
    (fields : List (String × JVal)) (h : lookupJ "results" fields = none) :
    lookupJ "results" (analyticsPrepare req isS fields) =
      some (.arr (placeholderResults req.symbols req.calculations)) := by
  simp only [analyticsPrepare]
  rw [lookupJ_ensureKey_ne _ _ _ _ (by decide)]
  apply lookupJ_ensureKey_absent
  cases isS
  · simp only [Bool.false_eq_true, if_false]
    rw [lookupJ_ensureKey_ne _ _ _ _ (by decide), lookupJ_setKey_ne _ _ _ _ (by decide),
      lookupJ_setKey_ne _ _ _ _ (by decide)]
    exact h
  · simp only [if_true]
    rw [lookupJ_setKey_ne _ _ _ _ (by decide), lookupJ_setKey_ne _ _ _ _ (by decide)]
    exact h

theorem analyticsPrepare_metadata (req : AnalyticsRequest) (isS : Bool)
    (fields : List (String × JVal))
    (hmeta : lookupJ "metadata" fields = none ∨
      ∃ m, lookupJ "metadata" fields = some (.obj m)) :
    ∃ m0, lookupJ "metadata" (analyticsPrepare req isS fields) = some (.obj m0) := by
  have hf4 : lookupJ "metadata"
      (ensureKey "results" (.arr (placeholderResults req.symbols req.calculations))
        (if isS then setKey "symbols" (.arr (req.symbols.map JVal.s))
            (setKey "window_type" (.s (if isS then "sliding" else "fixed")) fields)
          else ensureKey "data_format" (.s "json")
            (setKey "symbols" (.arr (req.symbols.map JVal.s))
              (setKey "window_type" (.s (if isS then "sliding" else "fixed")) fields)))) =
      lookupJ "metadata" fields := by
    rw [lookupJ_ensureKey_ne _ _ _ _ (by decide)]
    cases isS
    · simp only [Bool.false_eq_true, if_false]
      rw [lookupJ_ensureKey_ne _ _ _ _ (by decide), lookupJ_setKey_ne _ _ _ _ (by decide),
        lookupJ_setKey_ne _ _ _ _ (by decide)]
    · simp only [if_true]
      rw [lookupJ_setKey_ne _ _ _ _ (by decide), lookupJ_setKey_ne _ _ _ _ (by decide)]
  simp only [analyticsPrepare]
  rcases hmeta with hnone | ⟨m, hm⟩
  · refine ⟨[], ?_⟩
    apply lookupJ_ensureKey_absent
    rw [hf4]
    exact hnone
  · refine ⟨m, ?_⟩
    rw [ensureKey_of_hasKey _ _ _ (by rw [hasKeyJ, hf4, hm]; rfl), hf4]
    exact hm

theorem placeholderResults_ne_nil (symbols calculations : List String)
    (hs : symbols ≠ []) (hc : calculations ≠ []) :
    placeholderResults symbols calculations ≠ [] := by
  cases symbols with
  | nil => exact absurd rfl hs
  | cons a as =>
    cases calculations with
    | nil => exact absurd rfl hc
    | cons b bs => simp [placeholderResults]

theorem analyticsBackfill_spec (req : AnalyticsRequest) (isS : Bool)
    (fields : List (String × JVal))
    (hmeta : lookupJ "metadata" fields = none ∨
      ∃ m, lookupJ "metadata" fields = some (.obj m)) :
    ∃ out, analyticsBackfill req isS fields = some out ∧
      lookupJ "window_type" out = some (.s (if isS then "sliding" else "fixed")) ∧
      hasKeyJ "results" out = true ∧
      (lookupJ "results" fields = none →
        lookupJ "results" out =
          some (.arr (placeholderResults req.symbols req.calculations))) ∧
      ∃ m, lookupJ "metadata" out = some (.obj m) ∧
        lookupJ "interval" m = some (.s req.interval) ∧
        lookupJ "series_range" m = some (.s req.series_range) ∧
        lookupJ "ohlc" m = some (.s req.ohlc) ∧
        lookupJ "calculations" m = some (.arr (req.calculations.map JVal.s)) ∧
        lookupJ "window_size" m = some (if isS then
          (match req.window_size with
           | some w => JVal.num w
           | none => JVal.null)
          else .null) := by
  obtain ⟨m0, hm0⟩ := analyticsPrepare_metadata req isS fields hmeta
  refine ⟨setKey "metadata" (.obj (updateObj m0 (analyticsMetadataUpdates req isS)))
    (analyticsPrepare req isS fields), ?_, ?_, ?_, ?_, ?_⟩
  · simp only [analyticsBackfill]
    rw [hm0]
  · rw [lookupJ_setKey_ne _ _ _ _ (by decide)]
    exact analyticsPrepare_window_type req isS fields
  · rw [hasKeyJ_setKey_ne _ _ _ _ (by decide)]
    exact analyticsPrepare_results_hasKey req isS fields
  · intro h
    rw [lookupJ_setKey_ne _ _ _ _ (by decide)]
    exact analyticsPrepare_results_absent req isS fields h
  · refine ⟨updateObj m0 (analyticsMetadataUpdates req isS),
      lookupJ_setKey_self _ _ _, ?_, ?_, ?_, ?_, ?_⟩
    all_goals simp only [updateObj, analyticsMetadataUpdates, List.foldl]
    · rw [lookupJ_setKey_ne _ _ _ _ (by decide), lookupJ_setKey_ne _ _ _ _ (by decide),
        lookupJ_setKey_ne _ _ _ _ (by decide), lookupJ_setKey_ne _ _ _ _ (by decide),
        lookupJ_setKey_self]
    · rw [lookupJ_setKey_ne _ _ _ _ (by decide), lookupJ_setKey_ne _ _ _ _ (by decide),
        lookupJ_setKey_ne _ _ _ _ (by decide), lookupJ_setKey_self]
    · rw [lookupJ_setKey_ne _ _ _ _ (by decide), lookupJ_setKey_ne _ _ _ _ (by decide),
        lookupJ_setKey_self]
    · rw [lookupJ_setKey_self]
    · rw [lookupJ_setKey_ne _ _ _ _ (by decide), lookupJ_setKey_self]

/-- C2 counterexample: the claim promises a non-empty `results` array and a
metadata block echoing all input parameters.  But (a) when the Data Source
response already carries `"results": []`, that empty array is preserved;
(b) the metadata block never echoes `symbols` (it is written at the top
level only); and (c) on the fixed-window path selected by `window_size=5`,
the metadata echoes `window_size: None` rather than 5. -/
theorem c2_analyze_stocks_cex :
    analyze_stocks ⟨["IBM"], "DAILY", ["MEAN"], "full", "close", none⟩
        (.obj [("results", .arr [])]) =
      some (.obj [("results", .arr []), ("window_type", .s "fixed"),
        ("symbols", .arr [.s "IBM"]), ("data_format", .s "json"),
        ("metadata", .obj [("interval", .s "DAILY"), ("series_range", .s "full"),
          ("ohlc", .s "close"), ("window_size", .null),
          ("calculations", .arr [.s "MEAN"])])]) ∧
    hasKeyJ "symbols" [("interval", JVal.s "DAILY"), ("series_range", JVal.s "full"),
      ("ohlc", JVal.s "close"), ("window_size", JVal.null),
      ("calculations", JVal.arr [JVal.s "MEAN"])] = false ∧
    analyze_stocks ⟨["IBM"], "DAILY", ["MEAN"], "full", "close", some 5⟩ (.obj []) =
      some (.obj [("window_type", .s "fixed"), ("symbols", .arr [.s "IBM"]),
        ("data_format", .s "json"),
        ("results", .arr [.obj [("symbol", .s "IBM"), ("calculation", .s "MEAN"),
          ("value", .num 0), ("date", .s "2024-01-01")]]),
        ("metadata", .obj [("interval", .s "DAILY"), ("series_range", .s "full"),
          ("ohlc", .s "close"), ("window_size", .null),
          ("calculations", .arr [.s "MEAN"])])]) := by
  exact ⟨rfl, rfl, rfl⟩

/-- C2 amended: `window_size` absent or below 10 selects the fixed-window
operation and 10 or above selects the sliding-window operation; whenever
the Data Source response is a mapping (with a well-formed or absent
metadata block), the returned mapping carries a `results` key and a
`window_type` discriminant, the synthesized `results` array is non-empty
when the response omitted one and symbols and calculations are both
non-empty (a response-supplied `results` is preserved as-is, even empty),
and the `metadata` block echoes `interval`, `series_range`, `ohlc`,
`calculations`, and `window_size` — the latter as None on the fixed-window
path — while `symbols` is echoed at the top level, not inside metadata. -/
theorem c2_analyze_stocks_routing (req : AnalyticsRequest)
    (fields : List (String × JVal))
    (hmeta : lookupJ "metadata" fields = none ∨
      ∃ m, lookupJ "metadata" fields = some (.obj m)) :
    ∃ out, analyze_stocks req (.obj fields) = some (.obj out) ∧
      ((req.window_size = none ∨ ∃ w, req.window_size = some w ∧ w < 10) →
        lookupJ "window_type" out = some (.s "fixed")) ∧
      ((∃ w, req.window_size = some w ∧ 10 ≤ w) →
        lookupJ "window_type" out = some (.s "sliding")) ∧
      hasKeyJ "results" out = true ∧
      (lookupJ "results" fields = none → req.symbols ≠ [] → req.calculations ≠ [] →
        ∃ l, lookupJ "results" out = some (.arr l) ∧ l ≠ []) ∧
      ∃ m, lookupJ "metadata" out = some (.obj m) ∧
        lookupJ "interval" m = some (.s req.interval) ∧
        lookupJ "series_range" m = some (.s req.series_range) ∧
        lookupJ "ohlc" m = some (.s req.ohlc) ∧
        lookupJ "calculations" m = some (.arr (req.calculations.map JVal.s)) ∧
        lookupJ "window_size" m = some (match req.window_size with
          | some w => if 10 ≤ w then JVal.num w else JVal.null
          | none => JVal.null) := by
  obtain ⟨out, hout, hwt, hres, hresabs, m, hm, hi, hsr, ho, hc, hws⟩ :=
    analyticsBackfill_spec req
      (match req.window_size with
       | some w => decide (10 ≤ w)
       | none => false) fields hmeta
  refine ⟨out, ?_, ?_, ?_, hres, ?_, ⟨m, hm, hi, hsr, ho, hc, ?_⟩⟩
  · simp only [analyze_stocks]
    rw [hout]
    rfl
  · intro h
    rw [hwt]
    rcases h with h | ⟨w, hw, hlt⟩
    · rw [h]
      simp
    · rw [hw]
      have hd : decide (10 ≤ w) = false := decide_eq_false (by omega)
      simp [hd]
  · intro h
    obtain ⟨w, hw, hge⟩ := h
    rw [hwt, hw]
    have hd : decide (10 ≤ w) = true := decide_eq_true hge
    simp [hd]
  · intro habs hs hc'
    refine ⟨placeholderResults req.symbols req.calculations, hresabs habs, ?_⟩
    exact placeholderResults_ne_nil req.symbols req.calculations hs hc'
  · rw [hws]
    rcases hw : req.window_size with - | w
    · simp
    · by_cases hge : 10 ≤ w
      · simp [decide_eq_true hge, hge]
      · simp [decide_eq_false hge, hge]

/-- C2 witness: a sliding-window request (window_size 12) against a
response that is an empty mapping — all conclusions of the amended claim at
a concrete input. -/
theorem c2_analyze_stocks_routing_witness :
    ∃ out, analyze_stocks ⟨["IBM"], "DAILY", ["MEAN"], "full", "close", some 12⟩
        (.obj []) = some (.obj out) ∧
      ((some 12 = (none : Option Int) ∨ ∃ w, some 12 = some w ∧ w < 10) →
        lookupJ "window_type" out = some (.s "fixed")) ∧
      ((∃ w, (some 12 : Option Int) = some w ∧ 10 ≤ w) →
        lookupJ "window_type" out = some (.s "sliding")) ∧
      hasKeyJ "results" out = true ∧
      (lookupJ "results" ([] : List (String × JVal)) = none →
        (["IBM"] : List String) ≠ [] → (["MEAN"] : List String) ≠ [] →
        ∃ l, lookupJ "results" out = some (.arr l) ∧ l ≠ []) ∧
      ∃ m, lookupJ "metadata" out = some (.obj m) ∧
        lookupJ "interval" m = some (.s "DAILY") ∧
        lookupJ "series_range" m = some (.s "full") ∧
        lookupJ "ohlc" m = some (.s "close") ∧
        lookupJ "calculations" m = some (.arr [.s "MEAN"]) ∧
        lookupJ "window_size" m = some (.num 12) := by
  have h := c2_analyze_stocks_routing ⟨["IBM"], "DAILY", ["MEAN"], "full", "close", some 12⟩
    [] (Or.inl rfl)
  simpa using h

end AlphaVantage
